import Mathlib

/-!
Verification of the flood-disaster-crawl pipeline (src/src/main.rs).

The program fetches a remote file listing, diffs it against a sqlite
registry of already-seen ids, persists new ids, refreshes an OAuth
credential when there is work to do, and sends one chat notification
per new file. The definitions below are a shallow embedding of the
relevant functions of main.rs; external effects (network, filesystem,
storage I/O) are supplied by an environment record so that the control
flow of main can be proved about.
-/

/-- One remote file entry, as deserialized in main.rs (struct FileDetail). -/
structure FileDetail where
  id : String
  subject : String
  link_download : String
deriving DecidableEq, Repr

/-- The OAuth credential bundle (struct Credentials in main.rs). -/
structure Credentials where
  token_type : String
  scope : String
  expires_in : Int
  ext_expires_in : Int
  access_token : String
  refresh_token : String
  id_token : String
deriving DecidableEq, Repr

/-- The static application secrets (struct Secrets in main.rs). -/
structure Secrets where
  tenant_id : String
  client_id : String
  client_secret : String
  chat_id : String
deriving DecidableEq, Repr

/-- Rust i32 string parsing, as used by id.parse in query_by_id and
insert_file: optional single leading sign, then one or more ASCII
digits, value within the i32 range; anything else is a parse error. -/
def parseI32 (s : String) : Option Int :=
  let cs := s.data
  let signDigits : Int × List Char :=
    match cs with
    | '+' :: rest => (1, rest)
    | '-' :: rest => (-1, rest)
    | _ => (1, cs)
  let sign := signDigits.1
  let digits := signDigits.2
  if digits = [] then none
  else if digits.all (fun c => c.isDigit) then
    let n : Nat := digits.foldl (fun acc c => acc * 10 + (c.toNat - 48)) 0
    let v : Int := sign * (n : Int)
    if -(2 ^ 31) ≤ v ∧ v ≤ 2 ^ 31 - 1 then some v else none
  else none

/-- The id coercion applied at both storage call sites:
id.parse with unwrap_or_else returning 0 on any parse failure. -/
def coerceId (s : String) : Int :=
  (parseI32 s).getD 0

/-- A row of the sqlite table content (id INTEGER PRIMARY KEY, subject,
linkDownload); the registry is the list of rows in insertion order. -/
abbrev Db := List (Int × String × String)

/-- Point lookup helper: does the table hold a row with this integer id. -/
def hasId (db : Db) (n : Int) : Bool :=
  db.any (fun r => r.1 = n)

/-- query_by_id of main.rs: SELECT by the coerced integer id, true iff a
row exists. -/
def query_by_id (db : Db) (id : String) : Bool :=
  hasId db (coerceId id)

/-- Registry insertion errors: a primary-key violation, or a storage I/O
failure (the latter is decided by an oracle in the environment). -/
inductive DbError
  | duplicateKey
  | storageError
deriving DecidableEq, Repr

/-- insert_file of main.rs: INSERT the row keyed by the coerced id.
The fail oracle models storage I/O failure; a row whose primary key is
already present is a duplicate-key error. -/
def insert_file (fail : Int → Bool) (db : Db) (f : FileDetail) :
    Except DbError Db :=
  if fail (coerceId f.id) then .error .storageError
  else if hasId db (coerceId f.id) then .error .duplicateKey
  else .ok (db ++ [(coerceId f.id, f.subject, f.link_download)])

/-- The table after an insert whose result is discarded, as the
wildcard let in check_new_id does: on failure the table is unchanged. -/
def dbAfter (fail : Int → Bool) (db : Db) (f : FileDetail) : Db :=
  match insert_file fail db f with
  | .ok d => d
  | .error _ => db

/-- The loop body of check_new_id: walk the fetched list in order; for
each file query by id, and when absent insert it (the insert result is
discarded with a wildcard let in the source, so a failed insert leaves
the table unchanged but the file is still pushed onto new_files). -/
def checkNewIdGo (fail : Int → Bool) :
    List FileDetail → List FileDetail → Db → List FileDetail × Db
  | [], new_files, db => (new_files, db)
  | file :: rest, new_files, db =>
    if query_by_id db file.id then
      checkNewIdGo fail rest new_files db
    else
      checkNewIdGo fail rest (new_files ++ [file]) (dbAfter fail db file)

/-- check_new_id of main.rs: collect the unseen files (inserting each as
it is found), then reverse the collected list before returning it. -/
def check_new_id (fail : Int → Bool) (files : List FileDetail) (db : Db) :
    List FileDetail × Db :=
  let r := checkNewIdGo fail files [] db
  (r.1.reverse, r.2)

/-- The distinct fatal outcomes of a run, one per panic site of main. -/
inductive RunError
  | fetchError
  | secretsError
  | credentialsError
  | refreshError
  | notifyError
deriving DecidableEq, Repr

/-- Externally visible calls made during a run, in order: the catalog
fetch, the secrets and credentials file reads, the token-endpoint POST,
the credentials file write, and each chat-message POST with the bearer
token it carried. -/
inductive Event
  | fetchCall
  | secretsRead
  | credentialsRead
  | tokenCall
  | credentialsWrite (c : Credentials)
  | notifyCall (f : FileDetail) (bearer : String)
deriving DecidableEq, Repr

/-- An HTTP response as seen by send_message: status code and body. -/
structure HttpResponse where
  status : Nat
  body : String
deriving DecidableEq, Repr

/-- The external world for one run: the two configuration documents
(none = missing or unparsable), the catalog fetch outcome, the storage
failure oracle, the token endpoint outcome (error = transport failure,
ok none = body that does not parse as Credentials), the chat endpoint
outcome per file (error = transport failure), and the initial table. -/
structure Env where
  secretsDoc : Option Secrets
  credsDoc : Option Credentials
  fetchResult : Except Unit (List FileDetail)
  storageFail : Int → Bool
  tokenResponse : Except Unit (Option Credentials)
  notifyResponse : FileDetail → Except Unit HttpResponse
  db0 : Db

/-- refresh_token of main.rs: read secrets (panics when missing), read
credentials (panics when missing), POST to the token endpoint, panic on
transport failure or unparsable body, otherwise overwrite the whole
credentials document with the parsed response. Returns the credentials
document after the call, the events performed, and the outcome. -/
def refresh_token (env : Env) (credsFile : Option Credentials) :
    Option Credentials × List Event × Except RunError Credentials :=
  match env.secretsDoc with
  | none => (credsFile, [.secretsRead], .error .secretsError)
  | some _ =>
    match credsFile with
    | none => (credsFile, [.secretsRead, .credentialsRead], .error .credentialsError)
    | some _ =>
      match env.tokenResponse with
      | .error _ =>
        (credsFile, [.secretsRead, .credentialsRead, .tokenCall], .error .refreshError)
      | .ok none =>
        (credsFile, [.secretsRead, .credentialsRead, .tokenCall], .error .refreshError)
      | .ok (some c) =>
        (some c, [.secretsRead, .credentialsRead, .tokenCall, .credentialsWrite c],
          .ok c)

/-- send_message of main.rs: read secrets and credentials (panics when
missing), POST the card to the chat endpoint with the stored access
token as bearer; a transport failure is the only error path — the
response status is never inspected, its body is only logged, and the
call returns Ok. On success the bearer token used is returned. -/
def send_message (env : Env) (credsFile : Option Credentials) (f : FileDetail) :
    List Event × Except RunError String :=
  match env.secretsDoc with
  | none => ([.secretsRead], .error .secretsError)
  | some _ =>
    match credsFile with
    | none => ([.secretsRead, .credentialsRead], .error .credentialsError)
    | some c =>
      match env.notifyResponse f with
      | .error _ =>
        ([.secretsRead, .credentialsRead, .notifyCall f c.access_token],
          .error .notifyError)
      | .ok _ =>
        ([.secretsRead, .credentialsRead, .notifyCall f c.access_token],
          .ok c.access_token)

/-- The notification loop of main: send for each file in order, panic on
the first failure. Accumulates the pairs (file, bearer used) and the
events. -/
def notifyLoopGo (env : Env) (credsFile : Option Credentials) :
    List FileDetail → List (FileDetail × String) → List Event →
    List (FileDetail × String) × List Event × Except RunError Unit
  | [], acc, evs => (acc, evs, .ok ())
  | f :: rest, acc, evs =>
    match send_message env credsFile f with
    | (es, .error e) => (acc, evs ++ es, .error e)
    | (es, .ok bearer) => notifyLoopGo env credsFile rest (acc ++ [(f, bearer)]) (evs ++ es)

/-- The observable result of one run: the table after the run, the
credentials document after the run, how many times refresh_token was
invoked, the notifications sent (with the bearer each used, in send
order), the events in order, and the outcome (ok = exit 0). -/
structure RunResult where
  db : Db
  credsFile : Option Credentials
  refreshCount : Nat
  notified : List (FileDetail × String)
  events : List Event
  outcome : Except RunError Unit

/-- main of main.rs, from the catalog fetch on (logger and database
initialization are modelled as having succeeded): fetch, diff via
check_new_id, exit 0 when nothing is new, otherwise refresh the token
once and send one message per new file, panicking on the first
failure. -/
def run (env : Env) : RunResult :=
  match env.fetchResult with
  | .error _ =>
    ⟨env.db0, env.credsDoc, 0, [], [.fetchCall], .error .fetchError⟩
  | .ok file_list =>
    let r := check_new_id env.storageFail file_list env.db0
    let new_file_list := r.1
    let db1 := r.2
    if new_file_list = [] then
      ⟨db1, env.credsDoc, 0, [], [.fetchCall], .ok ()⟩
    else
      match refresh_token env env.credsDoc with
      | (cf, es, .error e) =>
        ⟨db1, cf, 1, [], .fetchCall :: es, .error e⟩
      | (cf, es, .ok _) =>
        match notifyLoopGo env cf new_file_list [] [] with
        | (notified, es2, out) =>
          ⟨db1, cf, 1, notified, .fetchCall :: (es ++ es2), out⟩

/-- Concrete fixtures used to instantiate the theorems below. -/
def fileA : FileDetail := ⟨"10971", "Flood Notice A", "https://x/a.pdf"⟩

def fileB : FileDetail := ⟨"10972", "Flood Notice B", "https://x/b.pdf"⟩

def fileC : FileDetail := ⟨"10973", "Flood Notice C", "https://x/c.pdf"⟩

def fileX : FileDetail := ⟨"abc", "Flood Notice X", "https://x/x.pdf"⟩

def fileY : FileDetail := ⟨"xyz", "Flood Notice Y", "https://x/y.pdf"⟩

def cred0 : Credentials :=
  ⟨"Bearer", "scope", 3599, 3599, "oldAccess", "oldRefresh", "oldId"⟩

def cred1 : Credentials :=
  ⟨"Bearer", "scope", 3599, 3599, "newAccess", "newRefresh", "newId"⟩

def sec0 : Secrets := ⟨"tenant", "client", "clientSecretValue", "chat"⟩

/-- A fully healthy environment: one unseen remote file, storage that
works, both documents present, a token endpoint and a chat endpoint
that answer successfully. -/
def baseEnv : Env where
  secretsDoc := some sec0
  credsDoc := some cred0
  fetchResult := .ok [fileA]
  storageFail := fun _ => false
  tokenResponse := .ok (some cred1)
  notifyResponse := fun _ => .ok ⟨200, "ok"⟩
  db0 := []

/-- An environment whose chat endpoint is transport-unreachable. -/
def envNotifyFail : Env := { baseEnv with notifyResponse := fun _ => .error () }

/-- An environment whose table already holds the one remote file. -/
def envIdle : Env :=
  { baseEnv with db0 := [(10971, "Flood Notice A", "https://x/a.pdf")] }

/-- An environment listing three unseen files A, B, C in that order. -/
def envABC : Env := { baseEnv with fetchResult := .ok [fileA, fileB, fileC] }

/-- An environment listing two files with non-numeric ids. -/
def envXY : Env := { baseEnv with fetchResult := .ok [fileX, fileY] }

/-- An environment whose chat endpoint answers 401 Unauthorized. -/
def env401 : Env :=
  { baseEnv with notifyResponse := fun _ => .ok ⟨401, "Unauthorized"⟩ }

/-- An environment whose chat endpoint is transport-unreachable. -/
def envNoTransport : Env := { baseEnv with notifyResponse := fun _ => .error () }

/-- An environment whose registry storage rejects every insert. -/
def envStorageDown : Env := { baseEnv with storageFail := fun _ => true }

/-- An environment whose secrets document is missing, with one unseen
remote file. -/
def envNoConfig : Env := { baseEnv with secretsDoc := none }

/-- The same environment but with the remote file already recorded. -/
def envNoConfigIdle : Env :=
  { envNoConfig with db0 := [(10971, "Flood Notice A", "https://x/a.pdf")] }

/-- Membership in hasId is preserved by appending rows. -/
theorem hasId_append (db : Db) (r : Int × String × String) (n : Int) :
    hasId (db ++ [r]) n = (hasId db n || decide (r.1 = n)) := by
  simp [hasId, List.any_append]

/-- A discarded insert never removes rows: any id present before is
present after. -/
theorem dbAfter_mono (fail : Int → Bool) (db : Db) (f : FileDetail) (n : Int)
    (h : hasId db n = true) : hasId (dbAfter fail db f) n = true := by
  unfold dbAfter insert_file
  by_cases h1 : fail (coerceId f.id) = true
  · simp [h1, h]
  · by_cases h2 : hasId db (coerceId f.id) = true
    · simp [h1, h2, h]
    · simp [h1, h2, hasId_append, h]

/-- Any id present after a discarded insert was present before or is the
inserted file's coerced id. -/
theorem dbAfter_hasId_cases (fail : Int → Bool) (db : Db) (f : FileDetail) (n : Int)
    (h : hasId (dbAfter fail db f) n = true) :
    hasId db n = true ∨ n = coerceId f.id := by
  unfold dbAfter insert_file at h
  by_cases h1 : fail (coerceId f.id) = true
  · simp [h1] at h; exact Or.inl h
  · by_cases h2 : hasId db (coerceId f.id) = true
    · simp [h1, h2] at h; exact Or.inl h
    · simp [h1, h2, hasId_append] at h
      rcases h with h' | h'
      · exact Or.inl h'
      · exact Or.inr h'.symm

/-- When storage does not fail and the id is absent, the discarded
insert actually appends the row. -/
theorem dbAfter_insert (db : Db) (f : FileDetail)
    (h : hasId db (coerceId f.id) = false) :
    dbAfter (fun _ => false) db f = db ++ [(coerceId f.id, f.subject, f.link_download)] := by
  unfold dbAfter insert_file
  simp [h]

/-- The diff loop only grows the table: ids present at entry are present
at exit. -/
theorem checkNewIdGo_db_mono (fail : Int → Bool) (files : List FileDetail) :
    ∀ (nf : List FileDetail) (db : Db) (n : Int), hasId db n = true →
    hasId (checkNewIdGo fail files nf db).2 n = true := by
  induction files with
  | nil => intro nf db n h; simpa [checkNewIdGo] using h
  | cons file rest ih =>
    intro nf db n h
    unfold checkNewIdGo
    split
    · exact ih nf db n h
    · exact ih (nf ++ [file]) (dbAfter fail db file) n (dbAfter_mono fail db file n h)

/-- Every file the diff loop adds to new_files was absent from the table
at loop entry (and came from the input list). -/
theorem checkNewIdGo_new_mem (fail : Int → Bool) (files : List FileDetail) :
    ∀ (nf : List FileDetail) (db : Db) (p : FileDetail),
    p ∈ (checkNewIdGo fail files nf db).1 →
    p ∈ nf ∨ (p ∈ files ∧ hasId db (coerceId p.id) = false) := by
  induction files with
  | nil => intro nf db p h; exact Or.inl (by simpa [checkNewIdGo] using h)
  | cons file rest ih =>
    intro nf db p h
    unfold checkNewIdGo at h
    split at h
    · rcases ih nf db p h with h' | ⟨h1, h2⟩
      · exact Or.inl h'
      · exact Or.inr ⟨List.mem_cons_of_mem file h1, h2⟩
    · rename_i hq
      rcases ih (nf ++ [file]) (dbAfter fail db file) p h with h' | ⟨h1, h2⟩
      · rcases List.mem_append.mp h' with h'' | h''
        · exact Or.inl h''
        · refine Or.inr ⟨by simp [List.mem_singleton.mp h''], ?_⟩
          rw [List.mem_singleton.mp h'']
          simpa [query_by_id] using hq
      · refine Or.inr ⟨List.mem_cons_of_mem file h1, ?_⟩
        by_contra hc
        simp only [Bool.not_eq_false] at hc
        have := dbAfter_mono fail db file (coerceId p.id) hc
        rw [h2] at this
        exact Bool.false_ne_true this

/-- With failure-free storage, the diff loop records the coerced id of
every input file. -/
theorem checkNewIdGo_all_inserted (files : List FileDetail) :
    ∀ (nf : List FileDetail) (db : Db) (f : FileDetail), f ∈ files →
    hasId (checkNewIdGo (fun _ => false) files nf db).2 (coerceId f.id) = true := by
  induction files with
  | nil => intro nf db f h; exact absurd h (List.not_mem_nil f)
  | cons file rest ih =>
    intro nf db f h
    unfold checkNewIdGo
    rcases List.mem_cons.mp h with rfl | hmem
    · split
      · rename_i hq
        exact checkNewIdGo_db_mono _ rest nf db _ (by simpa [query_by_id] using hq)
      · rename_i hq
        refine checkNewIdGo_db_mono _ rest (nf ++ [f]) _ _ ?_
        rw [dbAfter_insert db f (by simpa [query_by_id] using hq)]
        simp [hasId_append]
    · split
      · exact ih nf db f hmem
      · exact ih (nf ++ [file]) (dbAfter (fun _ => false) db file) f hmem

/-- When every input id is already present, the diff loop is the
identity: nothing is added and the table is unchanged. -/
theorem checkNewIdGo_all_seen (fail : Int → Bool) (files : List FileDetail) :
    ∀ (nf : List FileDetail) (db : Db),
    (∀ f ∈ files, hasId db (coerceId f.id) = true) →
    checkNewIdGo fail files nf db = (nf, db) := by
  induction files with
  | nil => intro nf db _; rfl
  | cons file rest ih =>
    intro nf db hall
    unfold checkNewIdGo
    split
    · exact ih nf db (fun f hf => hall f (List.mem_cons_of_mem file hf))
    · rename_i hq
      exact absurd (by simpa [query_by_id] using hall file (List.mem_cons_self file rest))
        (by simpa using hq)

/-- When every input id is absent and the coerced ids are pairwise
distinct, the diff loop appends exactly the input list to new_files. -/
theorem checkNewIdGo_all_new (fail : Int → Bool) (files : List FileDetail) :
    ∀ (nf : List FileDetail) (db : Db),
    (∀ f ∈ files, hasId db (coerceId f.id) = false) →
    files.Pairwise (fun a b => coerceId a.id ≠ coerceId b.id) →
    (checkNewIdGo fail files nf db).1 = nf ++ files := by
  induction files with
  | nil => intro nf db _ _; simp [checkNewIdGo]
  | cons file rest ih =>
    intro nf db hall hpw
    unfold checkNewIdGo
    split
    · rename_i hq
      exact absurd (by simpa [query_by_id] using hq)
        (by simp [hall file (List.mem_cons_self file rest)])
    · have hrest : ∀ f ∈ rest, hasId (dbAfter fail db file) (coerceId f.id) = false := by
        intro f hf
        by_contra hc
        simp only [Bool.not_eq_false] at hc
        rcases dbAfter_hasId_cases fail db file (coerceId f.id) hc with h3 | h3
        · rw [hall f (List.mem_cons_of_mem file hf)] at h3
          exact Bool.false_ne_true h3
        · exact (List.pairwise_cons.mp hpw).1 f hf h3.symm
      rw [ih (nf ++ [file]) (dbAfter fail db file) hrest (List.pairwise_cons.mp hpw).2]
      simp

/-- A successful send used exactly the access token of the credentials
document it read. -/
theorem send_message_ok_bearer (env : Env) (cf : Option Credentials)
    (f : FileDetail) (b : String) (h : (send_message env cf f).2 = .ok b) :
    ∃ c, cf = some c ∧ b = c.access_token := by
  unfold send_message at h
  cases hs : env.secretsDoc with
  | none => rw [hs] at h; exact absurd h (by simp)
  | some s =>
    rw [hs] at h
    cases hc : cf with
    | none => rw [hc] at h; exact absurd h (by simp)
    | some c =>
      rw [hc] at h
      cases hr : env.notifyResponse f with
      | error e => rw [hr] at h; exact absurd h (by simp)
      | ok r =>
        rw [hr] at h
        simp at h
        exact ⟨c, rfl, h.symm⟩

/-- Every pair the notification loop emits either entered in the
accumulator or is an input file paired with the bearer its successful
send returned. -/
theorem notifyLoopGo_mem (env : Env) (cf : Option Credentials)
    (files : List FileDetail) :
    ∀ (acc : List (FileDetail × String)) (evs : List Event)
      (p : FileDetail × String),
    p ∈ (notifyLoopGo env cf files acc evs).1 →
    p ∈ acc ∨ ((send_message env cf p.1).2 = .ok p.2 ∧ p.1 ∈ files) := by
  induction files with
  | nil => intro acc evs p h; exact Or.inl (by simpa [notifyLoopGo] using h)
  | cons f rest ih =>
    intro acc evs p h
    unfold notifyLoopGo at h
    rcases hsm : send_message env cf f with ⟨es, r⟩
    rw [hsm] at h
    cases r with
    | error e => exact Or.inl (by simpa using h)
    | ok b =>
      simp only at h
      rcases ih (acc ++ [(f, b)]) (evs ++ es) p h with h' | ⟨h1, h2⟩
      · rcases List.mem_append.mp h' with h'' | h''
        · exact Or.inl h''
        · have hp : p = (f, b) := List.mem_singleton.mp h''
          refine Or.inr ⟨?_, by simp [hp]⟩
          rw [hp]
          simpa using congrArg Prod.snd hsm
      · exact Or.inr ⟨h1, List.mem_cons_of_mem f h2⟩

/-- When the secrets document is present, the credentials document holds
c, and every chat POST succeeds at the transport level, the loop sends
one message per file in list order, each bearing the access token of c,
and ends successfully. -/
theorem notifyLoopGo_all_ok (env : Env) (c : Credentials) (s : Secrets)
    (hs : env.secretsDoc = some s) (files : List FileDetail) :
    ∀ (acc : List (FileDetail × String)) (evs : List Event),
    (∀ f ∈ files, ∃ r, env.notifyResponse f = .ok r) →
    (notifyLoopGo env (some c) files acc evs).1
      = acc ++ files.map (fun f => (f, c.access_token)) ∧
    (notifyLoopGo env (some c) files acc evs).2.2 = .ok () := by
  induction files with
  | nil => intro acc evs _; simp [notifyLoopGo]
  | cons f rest ih =>
    intro acc evs hall
    rcases hall f (List.mem_cons_self f rest) with ⟨r, hr⟩
    have hsm : send_message env (some c) f
        = ([.secretsRead, .credentialsRead, .notifyCall f c.access_token],
            .ok c.access_token) := by
      unfold send_message
      rw [hs, hr]
    unfold notifyLoopGo
    rw [hsm]
    simp only
    rcases ih (acc ++ [(f, c.access_token)]) (evs ++ _)
        (fun g hg => hall g (List.mem_cons_of_mem f hg)) with ⟨h1, h2⟩
    exact ⟨by rw [h1]; simp, h2⟩

/-- The table a run leaves behind is exactly the table the diff pass
produced: no later stage (refresh or notify, successful or not) writes
to it. -/
theorem run_db_eq (env : Env) (l : List FileDetail)
    (h : env.fetchResult = .ok l) :
    (run env).db = (check_new_id env.storageFail l env.db0).2 := by
  unfold run
  rw [h]
  simp only
  split
  · rfl
  · rcases hr : refresh_token env env.credsDoc with ⟨cf, es, out⟩
    cases out with
    | error e => rfl
    | ok c =>
      rcases hn : notifyLoopGo env cf (check_new_id env.storageFail l env.db0).1 [] []
        with ⟨notified, es2, o⟩
      rfl

/-- refresh_token with both documents present and a parsable token
response: the credentials document is overwritten wholesale. -/
theorem refresh_token_success (env : Env) (s : Secrets) (c0 c : Credentials)
    (hs : env.secretsDoc = some s) (ht : env.tokenResponse = .ok (some c)) :
    refresh_token env (some c0)
      = (some c, [.secretsRead, .credentialsRead, .tokenCall, .credentialsWrite c],
          .ok c) := by
  unfold refresh_token
  rw [hs, ht]

/-- refresh_token with a missing secrets document fails at the secrets
read, before any token-endpoint call, leaving the credentials document
untouched. -/
theorem refresh_token_no_secrets (env : Env) (cf : Option Credentials)
    (hs : env.secretsDoc = none) :
    refresh_token env cf = (cf, [.secretsRead], .error .secretsError) := by
  unfold refresh_token
  rw [hs]

/-- A successful refresh_token call returns exactly the parsed token
response and stores it as the whole credentials document. -/
theorem refresh_token_ok_char (env : Env) (cf0 cf : Option Credentials)
    (es : List Event) (c : Credentials)
    (h : refresh_token env cf0 = (cf, es, .ok c)) :
    env.tokenResponse = .ok (some c) ∧ cf = some c := by
  unfold refresh_token at h
  split at h
  · simp [Prod.ext_iff] at h
  · split at h
    · simp [Prod.ext_iff] at h
    · split at h
      · simp [Prod.ext_iff] at h
      · simp [Prod.ext_iff] at h
      · rename_i c' heq
        simp [Prod.ext_iff] at h
        obtain ⟨h1, _, h3⟩ := h
        exact ⟨by rw [heq, h3], by rw [← h1, h3]⟩

/-- A run whose diff pass found nothing new terminates successfully
right there: no document reads, no token call, no notifications. -/
theorem run_idle (env : Env) (l : List FileDetail)
    (hf : env.fetchResult = .ok l)
    (hempty : (check_new_id env.storageFail l env.db0).1 = []) :
    run env = ⟨(check_new_id env.storageFail l env.db0).2, env.credsDoc, 0, [],
        [.fetchCall], .ok ()⟩ := by
  unfold run
  rw [hf]
  simp only
  rw [if_pos hempty]

/-- A run whose refresh fails stops there: one refresh invocation, no
notifications, the refresh error as outcome. -/
theorem run_refresh_fail (env : Env) (l : List FileDetail)
    (cf : Option Credentials) (es : List Event) (e : RunError)
    (hf : env.fetchResult = .ok l)
    (hne : (check_new_id env.storageFail l env.db0).1 ≠ [])
    (hr : refresh_token env env.credsDoc = (cf, es, .error e)) :
    run env = ⟨(check_new_id env.storageFail l env.db0).2, cf, 1, [],
        .fetchCall :: es, .error e⟩ := by
  unfold run
  rw [hf]
  simp only
  rw [if_neg hne, hr]

/-- The fully successful run: both documents present, token response
parsable, at least one new file, every chat POST transport-successful.
One refresh, then one notification per new file in the (reversed) new
order, all bearing the refreshed access token; exit 0; the table is the
diff pass's table. -/
theorem run_success_char (env : Env) (l : List FileDetail) (s : Secrets)
    (c0 c : Credentials)
    (hf : env.fetchResult = .ok l)
    (hs : env.secretsDoc = some s)
    (hc0 : env.credsDoc = some c0)
    (ht : env.tokenResponse = .ok (some c))
    (hne : (check_new_id env.storageFail l env.db0).1 ≠ [])
    (hn : ∀ f ∈ (check_new_id env.storageFail l env.db0).1,
        ∃ r, env.notifyResponse f = .ok r) :
    (run env).notified
      = (check_new_id env.storageFail l env.db0).1.map (fun f => (f, c.access_token)) ∧
    (run env).credsFile = some c ∧
    (run env).refreshCount = 1 ∧
    (run env).outcome = .ok () ∧
    (run env).db = (check_new_id env.storageFail l env.db0).2 := by
  have hr : refresh_token env env.credsDoc
      = (some c, [.secretsRead, .credentialsRead, .tokenCall, .credentialsWrite c],
          .ok c) := by
    rw [hc0]; exact refresh_token_success env s c0 c hs ht
  rcases notifyLoopGo_all_ok env c s hs (check_new_id env.storageFail l env.db0).1
      [] [] hn with ⟨h1, h2⟩
  have hrun : run env = ⟨(check_new_id env.storageFail l env.db0).2, some c, 1,
      (notifyLoopGo env (some c) (check_new_id env.storageFail l env.db0).1 [] []).1,
      .fetchCall :: ([.secretsRead, .credentialsRead, .tokenCall, .credentialsWrite c]
        ++ (notifyLoopGo env (some c) (check_new_id env.storageFail l env.db0).1 [] []).2.1),
      (notifyLoopGo env (some c) (check_new_id env.storageFail l env.db0).1 [] []).2.2⟩ := by
    unfold run
    rw [hf]
    simp only
    rw [if_neg hne, hr]
  rw [hrun]
  refine ⟨by rw [h1]; simp, rfl, rfl, by rw [h2], rfl⟩

/-- Anything a run notified went through a successful refresh first: the
fetch succeeded, the token response parsed, the credentials document
now holds exactly that response, the bearer used is its access token,
and the file was in the diff pass's new set. -/
theorem run_notified_char (env : Env) (p : FileDetail × String)
    (hp : p ∈ (run env).notified) :
    ∃ l c, env.fetchResult = .ok l ∧ env.tokenResponse = .ok (some c) ∧
    (run env).credsFile = some c ∧ p.2 = c.access_token ∧
    p.1 ∈ (check_new_id env.storageFail l env.db0).1 ∧
    (run env).refreshCount = 1 := by
  cases hf : env.fetchResult with
  | error e =>
    unfold run at hp
    rw [hf] at hp
    exact absurd hp (by simp)
  | ok l =>
    by_cases hempty : (check_new_id env.storageFail l env.db0).1 = []
    · rw [run_idle env l hf hempty] at hp
      exact absurd hp (by simp)
    · rcases hr : refresh_token env env.credsDoc with ⟨cf, es, out⟩
      cases out with
      | error e =>
        rw [run_refresh_fail env l cf es e hf hempty hr] at hp
        exact absurd hp (by simp)
      | ok c =>
        rcases refresh_token_ok_char env env.credsDoc cf es c hr with ⟨ht, hcf⟩
        have hrun : run env = ⟨(check_new_id env.storageFail l env.db0).2, cf, 1,
            (notifyLoopGo env cf (check_new_id env.storageFail l env.db0).1 [] []).1,
            .fetchCall :: (es
              ++ (notifyLoopGo env cf (check_new_id env.storageFail l env.db0).1 [] []).2.1),
            (notifyLoopGo env cf (check_new_id env.storageFail l env.db0).1 [] []).2.2⟩ := by
          unfold run
          rw [hf]
          simp only
          rw [if_neg hempty, hr]
        rw [hrun] at hp
        simp only at hp
        rcases notifyLoopGo_mem env cf (check_new_id env.storageFail l env.db0).1
            [] [] p hp with h' | ⟨h1, h2⟩
        · exact absurd h' (by simp)
        · rcases send_message_ok_bearer env cf p.1 p.2 h1 with ⟨c', hc', hb⟩
          rw [hcf] at hc'
          have : c' = c := by injection hc' with h; exact h.symm
          subst this
          exact ⟨l, c', rfl, ht, by rw [hrun]; exact hcf, hb, h2, by rw [hrun]⟩

/-- A file whose coerced id is already in the table at diff-pass entry
is never placed in the new set. -/
theorem seen_not_new (fail : Int → Bool) (files : List FileDetail) (db : Db)
    (f : FileDetail) (h : hasId db (coerceId f.id) = true) :
    f ∉ (check_new_id fail files db).1 := by
  intro hmem
  have hmem' : f ∈ (checkNewIdGo fail files [] db).1 :=
    List.mem_reverse.mp hmem
  rcases checkNewIdGo_new_mem fail files [] db f hmem' with h' | ⟨_, h2⟩
  · exact absurd h' (List.not_mem_nil f)
  · rw [h] at h2
    exact absurd h2 (by simp)

/-- Claim C1: dedup is monotone and idempotent. A file whose coerced id
is in the registry when the diff pass runs is not placed in the new set
(first conjunct) and is not notified (second conjunct); and a second
run against the unchanged listing, starting from the table the first
run left behind, finds nothing new, refreshes nothing, notifies nothing
and exits 0 (third conjunct). -/
theorem c1_dedup_monotone_idempotent :
    (∀ (fail : Int → Bool) (files : List FileDetail) (db : Db) (f : FileDetail),
      hasId db (coerceId f.id) = true → f ∉ (check_new_id fail files db).1) ∧
    (∀ (env : Env) (p : FileDetail × String),
      hasId env.db0 (coerceId p.1.id) = true → p ∉ (run env).notified) ∧
    (∀ (env : Env) (l : List FileDetail), env.fetchResult = .ok l →
      env.storageFail = (fun _ => false) →
      (run { env with db0 := (run env).db }).notified = [] ∧
      (run { env with db0 := (run env).db }).refreshCount = 0 ∧
      (run { env with db0 := (run env).db }).outcome = .ok ()) := by
  refine ⟨seen_not_new, ?_, ?_⟩
  · intro env p hseen hp
    rcases run_notified_char env p hp with ⟨l, c, _, _, _, _, hmem, _⟩
    exact seen_not_new env.storageFail l env.db0 p.1 hseen hmem
  · intro env l hf hfail
    have hall : ∀ f ∈ l, hasId (run env).db (coerceId f.id) = true := by
      intro f hfm
      rw [run_db_eq env l hf, hfail]
      exact checkNewIdGo_all_inserted l [] env.db0 f hfm
    have hf2 : ({ env with db0 := (run env).db } : Env).fetchResult = .ok l := hf
    have hempty : (check_new_id ({ env with db0 := (run env).db } : Env).storageFail
        l ({ env with db0 := (run env).db } : Env).db0).1 = [] := by
      show (checkNewIdGo env.storageFail l [] (run env).db).1.reverse = []
      rw [checkNewIdGo_all_seen env.storageFail l [] (run env).db hall]
      rfl
    rw [run_idle { env with db0 := (run env).db } l hf2 hempty]
    exact ⟨rfl, rfl, rfl⟩

/-- C1 at a concrete input: one file, healthy run; running again from
the resulting table yields no notifications, no refresh, exit 0. -/
theorem c1_witness :
    (run { baseEnv with db0 := (run baseEnv).db }).notified = [] ∧
    (run { baseEnv with db0 := (run baseEnv).db }).refreshCount = 0 ∧
    (run { baseEnv with db0 := (run baseEnv).db }).outcome = .ok () :=
  c1_dedup_monotone_idempotent.2.2 baseEnv [fileA] rfl rfl

/-- Claim C2: every fetched file's id is persisted by the diff pass:
with working storage, the table a run leaves is exactly the diff pass's
table, and it contains the coerced id of every fetched file, with no
hypothesis on whether refresh or notification succeeded. -/
theorem c2_persisted_regardless :
    ∀ (env : Env) (l : List FileDetail) (f : FileDetail),
    env.fetchResult = .ok l → env.storageFail = (fun _ => false) → f ∈ l →
    (run env).db = (check_new_id env.storageFail l env.db0).2 ∧
    hasId (run env).db (coerceId f.id) = true := by
  intro env l f hf hfail hm
  refine ⟨run_db_eq env l hf, ?_⟩
  rw [run_db_eq env l hf, hfail]
  exact checkNewIdGo_all_inserted l [] env.db0 f hm

/-- C2 at a concrete input: the notification fails, the run aborts, yet
the file's id is in the table. -/
theorem c2_witness :
    (run envNotifyFail).db
      = (check_new_id envNotifyFail.storageFail [fileA] envNotifyFail.db0).2 ∧
    hasId (run envNotifyFail).db (coerceId fileA.id) = true :=
  c2_persisted_regardless envNotifyFail [fileA] fileA rfl rfl (by decide)

/-- Claim C3: refresh gating. With an empty new set the run exits 0
having refreshed zero times and notified nothing; with a non-empty new
set refresh_token is invoked exactly once. -/
theorem c3_refresh_gating :
    ∀ (env : Env) (l : List FileDetail), env.fetchResult = .ok l →
    ((check_new_id env.storageFail l env.db0).1 = [] →
      (run env).refreshCount = 0 ∧ (run env).notified = [] ∧
      (run env).outcome = .ok ()) ∧
    ((check_new_id env.storageFail l env.db0).1 ≠ [] →
      (run env).refreshCount = 1) := by
  intro env l hf
  constructor
  · intro hempty
    rw [run_idle env l hf hempty]
    exact ⟨rfl, rfl, rfl⟩
  · intro hne
    rcases hr : refresh_token env env.credsDoc with ⟨cf, es, out⟩
    cases out with
    | error e => rw [run_refresh_fail env l cf es e hf hne hr]
    | ok c =>
      have hrun : run env = ⟨(check_new_id env.storageFail l env.db0).2, cf, 1,
          (notifyLoopGo env cf (check_new_id env.storageFail l env.db0).1 [] []).1,
          .fetchCall :: (es
            ++ (notifyLoopGo env cf (check_new_id env.storageFail l env.db0).1 [] []).2.1),
          (notifyLoopGo env cf (check_new_id env.storageFail l env.db0).1 [] []).2.2⟩ := by
        unfold run
        rw [hf]
        simp only
        rw [if_neg hne, hr]
      rw [hrun]

/-- C3 at concrete inputs: one new file gives one refresh; an already
seen file gives zero refreshes, zero notifications, exit 0. -/
theorem c3_witness :
    (run baseEnv).refreshCount = 1 ∧
    ((run envIdle).refreshCount = 0 ∧ (run envIdle).notified = [] ∧
      (run envIdle).outcome = .ok ()) :=
  ⟨(c3_refresh_gating baseEnv [fileA] rfl).2 (by decide),
   (c3_refresh_gating envIdle [fileA] rfl).1 (by decide)⟩

/-- Claim C4: notification order is the reverse of fetch order. For any
fetched listing of previously unseen files with pairwise distinct
coerced ids, in a run where refresh and every send succeed, the files
notified are exactly the listing reversed. -/
theorem c4_reverse_order :
    ∀ (env : Env) (l : List FileDetail) (s : Secrets) (c0 c : Credentials),
    env.fetchResult = .ok l →
    env.secretsDoc = some s → env.credsDoc = some c0 →
    env.tokenResponse = .ok (some c) →
    (∀ f ∈ l, hasId env.db0 (coerceId f.id) = false) →
    l.Pairwise (fun a b => coerceId a.id ≠ coerceId b.id) →
    (∀ f ∈ l, ∃ r, env.notifyResponse f = .ok r) →
    (run env).notified.map Prod.fst = l.reverse := by
  intro env l s c0 c hf hs hc0 ht hunseen hpw hn
  have hnew : (check_new_id env.storageFail l env.db0).1 = l.reverse := by
    show (checkNewIdGo env.storageFail l [] env.db0).1.reverse = l.reverse
    rw [checkNewIdGo_all_new env.storageFail l [] env.db0 hunseen hpw]
    simp
  by_cases hl : l = []
  · subst hl
    have hempty : (check_new_id env.storageFail [] env.db0).1 = [] := by
      rw [hnew]; rfl
    rw [run_idle env [] hf hempty]
    rfl
  · have hne : (check_new_id env.storageFail l env.db0).1 ≠ [] := by
      rw [hnew]; simpa using hl
    have hn' : ∀ f ∈ (check_new_id env.storageFail l env.db0).1,
        ∃ r, env.notifyResponse f = .ok r := by
      rw [hnew]
      intro f hfm
      exact hn f (List.mem_reverse.mp hfm)
    rcases run_success_char env l s c0 c hf hs hc0 ht hne hn' with ⟨h1, _, _, _, _⟩
    rw [h1, hnew, List.map_map]
    have hcomp : (Prod.fst ∘ fun f : FileDetail => (f, c.access_token))
        = fun f => f := rfl
    rw [hcomp, List.map_id']

/-- C4 at a concrete input: remote order A, B, C gives notification
order C, B, A. -/
theorem c4_witness :
    (run envABC).notified.map Prod.fst = [fileA, fileB, fileC].reverse :=
  c4_reverse_order envABC [fileA, fileB, fileC] sec0 cred0 cred1
    rfl rfl rfl rfl (by decide) (by decide)
    (fun f _ => ⟨⟨200, "ok"⟩, rfl⟩)

/-- Claim C5: every notification uses the credential durably stored by
this run's successful refresh. Whenever a run notified anything, the
token response was written back as the whole credentials document, the
bearer of each notification is exactly that stored credential's access
token, and the refresh happened (once) before. -/
theorem c5_refreshed_credential_used :
    ∀ (env : Env) (p : FileDetail × String), p ∈ (run env).notified →
    env.tokenResponse = .ok ((run env).credsFile) ∧
    Option.map (fun c => c.access_token) ((run env).credsFile) = some p.2 ∧
    (run env).refreshCount = 1 := by
  intro env p hp
  rcases run_notified_char env p hp with ⟨l, c, _, ht, hcf, hb, _, hrc⟩
  refine ⟨by rw [ht, hcf], by rw [hcf]; simp [hb], hrc⟩

/-- C5 at a concrete input: the one message sent bears the access token
of the refreshed credential, which is the stored document. -/
theorem c5_witness :
    baseEnv.tokenResponse = .ok ((run baseEnv).credsFile) ∧
    Option.map (fun c => c.access_token) ((run baseEnv).credsFile)
      = some (fileA, "newAccess").2 ∧
    (run baseEnv).refreshCount = 1 :=
  c5_refreshed_credential_used baseEnv (fileA, "newAccess") (by decide)

/-- Claim C6: two files with unparsable ids collide on identity 0. The
first is recorded under id 0 and notified; the second is treated as a
duplicate: not placed in the new set, not recorded, not notified. -/
theorem c6_nonnumeric_ids_collide :
    ∀ (env : Env) (f g : FileDetail) (s : Secrets) (c0 c : Credentials),
    env.fetchResult = .ok [f, g] →
    parseI32 f.id = none → parseI32 g.id = none →
    hasId env.db0 0 = false →
    env.storageFail = (fun _ => false) →
    env.secretsDoc = some s → env.credsDoc = some c0 →
    env.tokenResponse = .ok (some c) →
    (∃ r, env.notifyResponse f = .ok r) →
    (check_new_id env.storageFail [f, g] env.db0).1 = [f] ∧
    (run env).db = env.db0 ++ [(0, f.subject, f.link_download)] ∧
    (run env).notified.map Prod.fst = [f] := by
  intro env f g s c0 c hf hpf hpg hdb0 hfail hs hc0 ht hnr
  have hcf : coerceId f.id = 0 := by simp [coerceId, hpf]
  have hcg : coerceId g.id = 0 := by simp [coerceId, hpg]
  have hq1 : query_by_id env.db0 f.id = false := by
    rw [query_by_id, hcf]; exact hdb0
  have hd1 : dbAfter (fun _ => false) env.db0 f
      = env.db0 ++ [(0, f.subject, f.link_download)] := by
    have h := dbAfter_insert env.db0 f (by rw [hcf]; exact hdb0)
    rw [hcf] at h
    exact h
  have hq2 : query_by_id (env.db0 ++ [(0, f.subject, f.link_download)]) g.id
      = true := by
    rw [query_by_id, hcg, hasId_append]
    simp
  have hgo : checkNewIdGo (fun _ => false) [f, g] [] env.db0
      = ([f], env.db0 ++ [(0, f.subject, f.link_download)]) := by
    unfold checkNewIdGo
    rw [hq1]
    simp only [Bool.false_eq_true, if_false, hd1]
    unfold checkNewIdGo
    rw [hq2]
    simp only [if_true]
    rfl
  have hnew : (check_new_id env.storageFail [f, g] env.db0).1 = [f] := by
    show (checkNewIdGo env.storageFail [f, g] [] env.db0).1.reverse = [f]
    rw [hfail, hgo]
    rfl
  have hdb : (check_new_id env.storageFail [f, g] env.db0).2
      = env.db0 ++ [(0, f.subject, f.link_download)] := by
    show (checkNewIdGo env.storageFail [f, g] [] env.db0).2
      = env.db0 ++ [(0, f.subject, f.link_download)]
    rw [hfail, hgo]
  have hne : (check_new_id env.storageFail [f, g] env.db0).1 ≠ [] := by
    rw [hnew]; simp
  have hn' : ∀ x ∈ (check_new_id env.storageFail [f, g] env.db0).1,
      ∃ r, env.notifyResponse x = .ok r := by
    rw [hnew]
    intro x hx
    rw [List.mem_singleton.mp hx]
    exact hnr
  rcases run_success_char env [f, g] s c0 c hf hs hc0 ht hne hn'
    with ⟨h1, _, _, _, h5⟩
  refine ⟨hnew, by rw [h5, hdb], by rw [h1, hnew]; simp⟩

/-- C6 at a concrete input: of two non-numeric-id files only the first
is recorded (under id 0) and notified. -/
theorem c6_witness :
    (check_new_id envXY.storageFail [fileX, fileY] envXY.db0).1 = [fileX] ∧
    (run envXY).db = envXY.db0 ++ [(0, fileX.subject, fileX.link_download)] ∧
    (run envXY).notified.map Prod.fst = [fileX] :=
  c6_nonnumeric_ids_collide envXY fileX fileY sec0 cred0 cred1
    rfl (by decide) (by decide) (by decide) rfl rfl rfl rfl ⟨⟨200, "ok"⟩, rfl⟩

/-- Counterexample to claim C7: the chat endpoint answers a non-success
401 response, yet send_message reports success, the file is counted as
notified, and the run exits 0. -/
theorem c7_counterexample :
    env401.notifyResponse fileA = .ok ⟨401, "Unauthorized"⟩ ∧
    (send_message env401 (some cred1) fileA).2 = .ok cred1.access_token ∧
    (run env401).outcome = .ok () ∧
    (run env401).notified.map Prod.fst = [fileA] := by
  refine ⟨rfl, rfl, rfl, rfl⟩

/-- Claim C7 as amended: notify fails with the notify error exactly on
transport failure; any HTTP response at all — its status is never
inspected — is reported as success. -/
theorem c7_notify_transport_only :
    ∀ (env : Env) (s : Secrets) (c : Credentials) (f : FileDetail),
    env.secretsDoc = some s →
    ((env.notifyResponse f = .error () →
        (send_message env (some c) f).2 = .error .notifyError) ∧
     (∀ r, env.notifyResponse f = .ok r →
        (send_message env (some c) f).2 = .ok c.access_token)) := by
  intro env s c f hs
  constructor
  · intro he
    unfold send_message
    rw [hs, he]
  · intro r hr
    unfold send_message
    rw [hs, hr]

/-- C7 (amended) at concrete inputs: a transport failure is the notify
error; a 401 response is reported as success. -/
theorem c7_witness :
    (send_message envNoTransport (some cred1) fileA).2 = .error .notifyError ∧
    (send_message env401 (some cred1) fileA).2 = .ok cred1.access_token :=
  ⟨(c7_notify_transport_only envNoTransport sec0 cred1 fileA rfl).1 rfl,
   (c7_notify_transport_only env401 sec0 cred1 fileA rfl).2 ⟨401, "Unauthorized"⟩ rfl⟩

/-- Counterexample to claim C8: the registry insert for the one new file
fails (no row is ever recorded), yet the run does not terminate with an
error — it proceeds to notify the file and exits 0. -/
theorem c8_counterexample :
    (run envStorageDown).outcome = .ok () ∧
    (run envStorageDown).db = [] ∧
    (run envStorageDown).notified.map Prod.fst = [fileA] := by
  refine ⟨rfl, rfl, rfl⟩

/-- Claim C8 as amended: a registry insert failure during the diff pass
is silently discarded (the wildcard let in check_new_id): the table is
left without the row, the file still enters the new set, and in an
otherwise healthy run it is notified and the run exits 0. -/
theorem c8_insert_failure_ignored :
    ∀ (env : Env) (f : FileDetail) (s : Secrets) (c0 c : Credentials),
    env.fetchResult = .ok [f] →
    env.storageFail (coerceId f.id) = true →
    hasId env.db0 (coerceId f.id) = false →
    env.secretsDoc = some s → env.credsDoc = some c0 →
    env.tokenResponse = .ok (some c) →
    (∃ r, env.notifyResponse f = .ok r) →
    (run env).outcome = .ok () ∧ (run env).db = env.db0 ∧
    (run env).notified.map Prod.fst = [f] := by
  intro env f s c0 c hf hfail hseen hs hc0 ht hnr
  have hq : query_by_id env.db0 f.id = false := hseen
  have hd : dbAfter env.storageFail env.db0 f = env.db0 := by
    unfold dbAfter insert_file
    rw [hfail]
    rfl
  have hgo : checkNewIdGo env.storageFail [f] [] env.db0 = ([f], env.db0) := by
    unfold checkNewIdGo
    rw [hq]
    simp only [Bool.false_eq_true, if_false, hd]
    rfl
  have hnew : (check_new_id env.storageFail [f] env.db0).1 = [f] := by
    show (checkNewIdGo env.storageFail [f] [] env.db0).1.reverse = [f]
    rw [hgo]
    rfl
  have hdb : (check_new_id env.storageFail [f] env.db0).2 = env.db0 := by
    show (checkNewIdGo env.storageFail [f] [] env.db0).2 = env.db0
    rw [hgo]
  have hne : (check_new_id env.storageFail [f] env.db0).1 ≠ [] := by
    rw [hnew]; simp
  have hn' : ∀ x ∈ (check_new_id env.storageFail [f] env.db0).1,
      ∃ r, env.notifyResponse x = .ok r := by
    rw [hnew]
    intro x hx
    rw [List.mem_singleton.mp hx]
    exact hnr
  rcases run_success_char env [f] s c0 c hf hs hc0 ht hne hn'
    with ⟨h1, _, _, h4, h5⟩
  refine ⟨h4, by rw [h5, hdb], by rw [h1, hnew]; rfl⟩

/-- C8 (amended) at a concrete input. -/
theorem c8_witness :
    (run envStorageDown).outcome = .ok () ∧
    (run envStorageDown).db = envStorageDown.db0 ∧
    (run envStorageDown).notified.map Prod.fst = [fileA] :=
  c8_insert_failure_ignored envStorageDown fileA sec0 cred0 cred1
    rfl rfl rfl rfl rfl rfl ⟨⟨200, "ok"⟩, rfl⟩

/-- Counterexample to claim C9: with the secrets document missing, the
catalog fetch (a network call) still happens first — the run fails only
afterwards, at the secrets read inside refresh_token; and when nothing
is new the run exits 0 without ever reading the secrets. -/
theorem c9_counterexample :
    (run envNoConfig).events = [.fetchCall, .secretsRead] ∧
    (run envNoConfig).outcome = .error .secretsError ∧
    (run envNoConfigIdle).outcome = .ok () ∧
    Event.secretsRead ∉ (run envNoConfigIdle).events := by
  refine ⟨rfl, rfl, rfl, by decide⟩

/-- Claim C9 as amended: the configuration documents are not loaded at
init; the secrets document is first read inside refresh_token, after
the catalog fetch, and only when the new set is non-empty. An empty new
set means a missing secrets document is never noticed and the run exits
0; a non-empty one aborts the run at the secrets read, the fetch having
already happened. -/
theorem c9_lazy_config_reads :
    ∀ (env : Env) (l : List FileDetail), env.fetchResult = .ok l →
    env.secretsDoc = none →
    ((check_new_id env.storageFail l env.db0).1 = [] →
      (run env).outcome = .ok () ∧ Event.secretsRead ∉ (run env).events) ∧
    ((check_new_id env.storageFail l env.db0).1 ≠ [] →
      (run env).outcome = .error .secretsError ∧
      (run env).events = [.fetchCall, .secretsRead]) := by
  intro env l hf hs
  constructor
  · intro hempty
    rw [run_idle env l hf hempty]
    refine ⟨rfl, ?_⟩
    show Event.secretsRead ∉ [Event.fetchCall]
    decide
  · intro hne
    have hr := refresh_token_no_secrets env env.credsDoc hs
    rw [run_refresh_fail env l env.credsDoc [.secretsRead] .secretsError hf hne hr]
    exact ⟨rfl, rfl⟩

/-- C9 (amended) at concrete inputs. -/
theorem c9_witness :
    ((run envNoConfig).outcome = .error .secretsError ∧
      (run envNoConfig).events = [.fetchCall, .secretsRead]) ∧
    ((run envNoConfigIdle).outcome = .ok () ∧
      Event.secretsRead ∉ (run envNoConfigIdle).events) :=
  ⟨(c9_lazy_config_reads envNoConfig [fileA] rfl rfl).2 (by decide),
   (c9_lazy_config_reads envNoConfigIdle [fileA] rfl rfl).1 (by decide)⟩

/-- Claim C10: the id coercion is exactly i32 parsing with 0 as the
fallback: every parsable id keeps its value, which lies in the i32
range; every unparsable id — including the out-of-range numeric string
2147483648 — collapses to 0; and a negative id string parses and is
stored under its negative value rather than rejected. -/
theorem c10_i32_coercion :
    (∀ (t : String) (n : Int), parseI32 t = some n →
      coerceId t = n ∧ -(2 ^ 31) ≤ n ∧ n ≤ 2 ^ 31 - 1) ∧
    (∀ t : String, parseI32 t = none → coerceId t = 0) ∧
    parseI32 "2147483648" = none ∧ coerceId "2147483648" = 0 ∧
    parseI32 "-17" = some (-17) ∧ coerceId "-17" = -17 ∧
    insert_file (fun _ => false) [] ⟨"-17", "negative id", "link"⟩
      = .ok [(-17, "negative id", "link")] := by
  refine ⟨?_, ?_, by decide, by decide, by decide, by decide, by rfl⟩
  · intro t n h
    refine ⟨by simp [coerceId, h], ?_⟩
    simp only [parseI32] at h
    split_ifs at h
    have hv := Option.some.inj h
    rw [← hv]
    assumption
  · intro t h
    simp [coerceId, h]

/-- C10 at concrete inputs: a parsable id keeps its value in range; an
unparsable id collapses to 0. -/
theorem c10_witness :
    (coerceId "10971" = 10971 ∧ -(2 ^ 31) ≤ (10971 : Int) ∧
      (10971 : Int) ≤ 2 ^ 31 - 1) ∧
    coerceId "abc" = 0 :=
  ⟨c10_i32_coercion.1 "10971" 10971 (by decide),
   c10_i32_coercion.2.1 "abc" (by decide)⟩
